import Mathlib

/-!
Verification of the guzzle task-orchestration layer (gulp-guzzle).

The definitions below are a shallow embedding of the two source files
`guzzle.js` (older revision) and the unnamed revision with the lifecycle
state machine (`State`, `prettyPrint`, `runOnce`).  The embedding follows the
later revision, which is the one the lifecycle claims cite; where the two
revisions agree (constructor namespacing, `read`, `makeGulpTasks`,
`outputTaskGraph`) the definitions cover both.

JavaScript `Date` values are modelled as integer millisecond timestamps
(`Int`); `null`/`undefined` fields are `Option`; the process-wide
`guzzleTasks` array is an explicit `List TaskRec` threaded through the
functions that read or mutate it.  Object identity of a dependency declared
as a `GuzzleTask` instance is modelled by its index in that list, which is
stable because tasks are only ever appended.
-/

/-- Lifecycle states, from the `State` constant of the source. -/
inductive State where
  | notStarted
  | started
  | done
  | error
deriving DecidableEq, Repr

/-- A dependency entry as stored in `_dependencies` before resolution:
either a raw name string or a reference to another `GuzzleTask` object
(modelled by its index in the registry list). -/
abbrev DepRef := Sum String Nat

/-- The per-task record: the `GuzzleTask` fields that the lifecycle
handlers, the resolver, and the reporter read and write.
`bodyRuns` counts how many times the user body (`onDoneFunction`) has been
invoked, so run-once behaviour can be stated; `hasBody` records whether the
task was declared with a body (`_onDoneFunction` set). -/
structure TaskRec where
  name      : String
  deps      : List DepRef
  hasBody   : Bool
  runOnce   : Bool
  state     : State
  startedAt : Option Int
  endedAt   : Option Int
  bodyRuns  : Nat
deriving DecidableEq, Repr

/-- A freshly constructed task (constructor defaults: `_state = NOT_STARTED`,
`_started = null`, no runs yet). -/
def TaskRec.mk0 (name : String) (deps : List DepRef) (hasBody runOnce : Bool) :
    TaskRec :=
  { name := name, deps := deps, hasBody := hasBody, runOnce := runOnce,
    state := State.notStarted, startedAt := none, endedAt := none,
    bodyRuns := 0 }

/-- The `task_start` handler: sets `_state = STARTED` and stamps
`_started = new Date()` unconditionally. -/
def taskStartHandler (now : Int) (t : TaskRec) : TaskRec :=
  { t with state := State.started, startedAt := some now }

/-- The `task_stop` handler: if `_state === DONE` it returns without
touching the task; otherwise it sets `_state = DONE` and stamps
`_ended = new Date()`. -/
def taskStopHandler (now : Int) (t : TaskRec) : TaskRec :=
  if t.state = State.done then t
  else { t with state := State.done, endedAt := some now }

/-- The `task_err` handler: sets `_state = ERROR` unconditionally. -/
def taskErrHandler (t : TaskRec) : TaskRec :=
  { t with state := State.error }

/-- The three lifecycle signals gulp delivers to the handlers. -/
inductive GulpEvent where
  | start (now : Int)
  | stop (now : Int)
  | err
deriving DecidableEq, Repr

/-- Dispatch of one lifecycle signal to the matching handler. -/
def applyGulpEvent (t : TaskRec) : GulpEvent → TaskRec
  | GulpEvent.start now => taskStartHandler now t
  | GulpEvent.stop now => taskStopHandler now t
  | GulpEvent.err => taskErrHandler t

/-- The guard at the top of the completion wrapper `_onDoneFunction`:
`if (this._runOnce && this._state !== State.NOT_STARTED) return callback();`.
`true` means the wrapper calls the scheduler callback immediately and the
user body is skipped. -/
def onDoneGuardSkips (t : TaskRec) : Bool :=
  t.runOnce && !(t.state = State.notStarted)

/-- The completion wrapper's effect on the body-invocation count: when the
run-once guard does not trip, the user body is invoked once. -/
def runOnDone (t : TaskRec) : TaskRec :=
  if onDoneGuardSkips t then t else { t with bodyRuns := t.bodyRuns + 1 }

/-- One activation of a task as driven by the external scheduler the code
binds to (gulp 3 / orchestrator): `Orchestrator.prototype._runTask` emits
`task_start` synchronously — running the registered `task_start` handler,
which sets `_state = STARTED` — and only then invokes the task function,
i.e. the completion wrapper. -/
def gulpActivate (now : Int) (t : TaskRec) : TaskRec :=
  runOnDone (taskStartHandler now t)

/-- A fresh run-once task with a body, as produced by `guzzle.taskOnce`. -/
def freshOnceTask : TaskRec :=
  TaskRec.mk0 "deploy" [] true true

/-- Claim C1: on the very first activation of a run-once task the body does
not run — and it never runs on any later activation either.  The
`task_start` handler has already set `_state = STARTED` by the time the
wrapper checks `this._state !== State.NOT_STARTED`, so the guard trips on
every activation, including the first: `bodyRuns` stays `0` after any
sequence of activations. -/
theorem c1_runOnce_body_never_runs (times : List Int) :
    (times.foldl (fun t n => gulpActivate n t) freshOnceTask).bodyRuns = 0 := by
  have key : ∀ (ts : List Int) (t : TaskRec), t.runOnce = true →
      (ts.foldl (fun t n => gulpActivate n t) t).bodyRuns = t.bodyRuns := by
    intro ts
    induction ts with
    | nil => intro t _; rfl
    | cons n rest ih =>
      intro t ht
      have hstep : gulpActivate n t =
          { t with state := State.started, startedAt := some n } := by
        simp [gulpActivate, runOnDone, onDoneGuardSkips, taskStartHandler, ht]
      simp only [List.foldl_cons, hstep]
      exact ih _ ht
  exact key times freshOnceTask rfl

/-- Claim C3: the stop handler is idempotent — a task already `DONE` is left
entirely unchanged (no re-stamp of `endedAt`), and a task not in `DONE` is
moved to `DONE` with `endedAt` stamped to the current time. -/
theorem c3_stop_idempotent (t : TaskRec) (now : Int) :
    (t.state = State.done → taskStopHandler now t = t) ∧
    (t.state ≠ State.done →
      (taskStopHandler now t).state = State.done ∧
      (taskStopHandler now t).endedAt = some now) := by
  constructor
  · intro h; simp [taskStopHandler, h]
  · intro h; simp [taskStopHandler, h]

/-- Witness for C3 at concrete tasks: a `DONE` task is untouched by a further
stop signal, and a `STARTED` task is moved to `DONE` with `endedAt` stamped. -/
theorem c3_stop_idempotent_witness :
    (taskStopHandler 9 { freshOnceTask with state := State.done } =
      { freshOnceTask with state := State.done }) ∧
    ((taskStopHandler 9 { freshOnceTask with state := State.started }).state =
      State.done ∧
     (taskStopHandler 9 { freshOnceTask with state := State.started }).endedAt =
      some 9) :=
  ⟨(c3_stop_idempotent { freshOnceTask with state := State.done } 9).1 rfl,
   (c3_stop_idempotent { freshOnceTask with state := State.started } 9).2
     (by decide)⟩

/-- A task sitting in `DONE`, used to exhibit the unguarded error handler. -/
def doneTaskC4 : TaskRec :=
  { TaskRec.mk0 "build" [] true false with
    state := State.done, startedAt := some 0, endedAt := some 5 }

/-- Counterexample to claim C4: the `task_err` handler sets `ERROR`
unconditionally, so a task whose state is `DONE` (not `STARTED`) enters
`ERROR` when an error signal reaches it — such a signal is reachable, e.g.
orchestrator turns a duplicate completion callback into an error event after
the first callback already drove the task to `DONE`. -/
theorem c4_error_from_done :
    (applyGulpEvent doneTaskC4 GulpEvent.err).state = State.error ∧
    doneTaskC4.state ≠ State.started := by
  decide

/-- Claim C4 as amended: the handlers are unguarded except for the stop
handler's `DONE` check — a start signal sets `STARTED` from any state
(so also `ERROR → STARTED` and `STARTED → STARTED`), an error signal sets
`ERROR` from any state (so a task can enter `ERROR` from `DONE` or
`NOT_STARTED`), and a stop signal sets `DONE` from any non-`DONE` state
while leaving a `DONE` task unchanged. -/
theorem c4_handler_transitions (t : TaskRec) (n : Int) :
    (applyGulpEvent t (GulpEvent.start n)).state = State.started ∧
    (applyGulpEvent t GulpEvent.err).state = State.error ∧
    (t.state = State.done → applyGulpEvent t (GulpEvent.stop n) = t) ∧
    (t.state ≠ State.done →
      (applyGulpEvent t (GulpEvent.stop n)).state = State.done) := by
  refine ⟨rfl, rfl, ?_, ?_⟩
  · intro h; simp [applyGulpEvent, taskStopHandler, h]
  · intro h; simp [applyGulpEvent, taskStopHandler, h]

/-- Witness for the amended C4 at a concrete task: all four handler effects
evaluated on `doneTaskC4` and on a fresh task. -/
theorem c4_handler_transitions_witness :
    (applyGulpEvent doneTaskC4 (GulpEvent.start 3)).state = State.started ∧
    (applyGulpEvent doneTaskC4 GulpEvent.err).state = State.error ∧
    applyGulpEvent doneTaskC4 (GulpEvent.stop 3) = doneTaskC4 ∧
    (applyGulpEvent freshOnceTask (GulpEvent.stop 3)).state = State.done :=
  ⟨(c4_handler_transitions doneTaskC4 3).1,
   (c4_handler_transitions doneTaskC4 3).2.1,
   (c4_handler_transitions doneTaskC4 3).2.2.1 rfl,
   (c4_handler_transitions freshOnceTask 3).2.2.2 (by decide)⟩

/-!
Registry and constructor.  `guzzleTasks` is the process-wide array; the
`GuzzleTask` constructor maps over the declared dependencies and, for each
entry that is itself a `GuzzleTask` object, mutates that object's `_name` in
place to `parent._name ++ "." ++ dependantTask._name`; it then pushes the
new task onto `guzzleTasks`.
-/

/-- In-place rename of the task at index `i`: prepend `parent ++ "."` to its
current name (the constructor's namespacing assignment).  Out-of-range
indices leave the list unchanged; every index produced by `construct` is in
range. -/
def renameAt (parent : String) (ts : List TaskRec) (i : Nat) : List TaskRec :=
  match ts[i]? with
  | some t => ts.set i { t with name := parent ++ "." ++ t.name }
  | none => ts

/-- The constructor's pass over the dependency list: string entries are left
alone, object entries have the parent name prepended to their name in the
registry. -/
def namespaceDeps (parent : String) (ts : List TaskRec) (deps : List DepRef) :
    List TaskRec :=
  deps.foldl (fun acc d =>
    match d with
    | Sum.inl _ => acc
    | Sum.inr i => renameAt parent acc i) ts

/-- `new GuzzleTask(name, deps, body, { runOnce })`: namespaces object
dependencies in place, then appends the new task to `guzzleTasks`. -/
def construct (ts : List TaskRec) (name : String) (deps : List DepRef)
    (hasBody runOnce : Bool) : List TaskRec :=
  namespaceDeps name ts deps ++ [TaskRec.mk0 name deps hasBody runOnce]

/-- Name of the task at index `i` (a resolved object reference); the empty
string stands for the unreachable out-of-range case. -/
def nameAt (ts : List TaskRec) (i : Nat) : String :=
  match ts[i]? with
  | some t => t.name
  | none => ""

/-- Renaming one index never touches any other index. -/
theorem renameAt_other (parent : String) (ts : List TaskRec) (i j : Nat)
    (hij : i ≠ j) : (renameAt parent ts i)[j]? = ts[j]? := by
  unfold renameAt
  cases h : ts[i]? with
  | none => rfl
  | some t => exact List.getElem?_set_ne hij

/-- Renaming an in-range index prepends the parent prefix there. -/
theorem renameAt_self (parent : String) (ts : List TaskRec) (i : Nat)
    (t : TaskRec) (h : ts[i]? = some t) :
    (renameAt parent ts i)[i]? =
      some { t with name := parent ++ "." ++ t.name } := by
  unfold renameAt
  rw [h]
  have hi : i < ts.length := by
    by_contra hc
    rw [List.getElem?_eq_none (Nat.le_of_not_lt hc)] at h
    exact Option.noConfusion h
  simp [List.getElem?_set_self, hi]

/-- If index `i` appears in none of the object dependencies, namespacing
leaves it alone. -/
theorem namespaceDeps_not_mem (parent : String) (deps : List DepRef) :
    ∀ (ts : List TaskRec) (i : Nat), Sum.inr i ∉ deps →
      (namespaceDeps parent ts deps)[i]? = ts[i]? := by
  induction deps with
  | nil => intro ts i _; rfl
  | cons d rest ih =>
    intro ts i h
    have hrest : Sum.inr i ∉ rest := fun hm => h (List.mem_cons_of_mem _ hm)
    cases d with
    | inl s => exact ih ts i hrest
    | inr j =>
      have hij : j ≠ i := by
        intro hji
        exact h (hji ▸ List.mem_cons_self _ _)
      calc (namespaceDeps parent (renameAt parent ts j) rest)[i]?
          = (renameAt parent ts j)[i]? := ih _ i hrest
        _ = ts[i]? := renameAt_other parent ts j i hij

/-- Claim C6: declaring a task whose dependency list contains a `GuzzleTask`
object rewrites that dependency's name, at declaration time, to the parent's
name, a dot, then the dependency's previous name — provided the object
occurs once in the list (each occurrence triggers one rewrite). -/
theorem c6_dependency_namespaced (ts : List TaskRec) (parent : String)
    (hasBody runOnce : Bool)
    (i : Nat) (t : TaskRec) (hget : ts[i]? = some t)
    (pre post : List DepRef)
    (hpre : Sum.inr i ∉ pre) (hpost : Sum.inr i ∉ post) :
    nameAt (construct ts parent (pre ++ Sum.inr i :: post) hasBody runOnce) i =
      parent ++ "." ++ t.name := by
  have happ :
      (namespaceDeps parent ts (pre ++ Sum.inr i :: post))[i]? =
        some { t with name := parent ++ "." ++ t.name } := by
    have h1 : namespaceDeps parent ts (pre ++ Sum.inr i :: post) =
        namespaceDeps parent (renameAt parent (namespaceDeps parent ts pre) i)
          post := by
      unfold namespaceDeps
      rw [List.foldl_append]
      rfl
    rw [h1]
    rw [namespaceDeps_not_mem parent post _ i hpost]
    have h2 : (namespaceDeps parent ts pre)[i]? = some t := by
      rw [namespaceDeps_not_mem parent pre ts i hpre, hget]
    exact renameAt_self parent _ i t h2
  have hlen : i < (namespaceDeps parent ts (pre ++ Sum.inr i :: post)).length := by
    by_contra hc
    rw [List.getElem?_eq_none (Nat.le_of_not_lt hc)] at happ
    exact Option.noConfusion happ
  unfold construct nameAt
  rw [List.getElem?_append_left hlen, happ]

/-- Witness for C6 at the spec's example: a sub-task with local name `"css"`
declared (as an object) under parent `"build"` ends up named `"build.css"`. -/
theorem c6_dependency_namespaced_witness :
    nameAt (construct [TaskRec.mk0 "css" [] true false] "build" [Sum.inr 0]
      true false) 0 = "build.css" :=
  (c6_dependency_namespaced [TaskRec.mk0 "css" [] true false] "build"
    true false 0 (TaskRec.mk0 "css" [] true false) rfl
    [] [] (List.not_mem_nil _) (List.not_mem_nil _)).trans rfl

/-- Claim C10: the namespacing mutates the dependency object in place, so
passing the same task object to two successive parents stacks both parents'
prefixes onto the local name. -/
theorem c10_namespacing_stacks (lname p1 p2 : String)
    (hasBody runOnce : Bool) :
    nameAt (construct
      (construct [TaskRec.mk0 lname [] true false] p1 [Sum.inr 0] hasBody
        runOnce) p2 [Sum.inr 0] hasBody runOnce) 0 =
      p2 ++ "." ++ (p1 ++ "." ++ lname) := by
  simp [construct, namespaceDeps, renameAt, nameAt, TaskRec.mk0]

/-- Concrete instance of C10: `"css"` under `"p1"` then `"p2"` becomes
`"p2.p1.css"`, not a single `"<parent>.<local>"` name. -/
theorem c10_namespacing_stacks_example :
    nameAt (construct
      (construct [TaskRec.mk0 "css" [] true false] "p1" [Sum.inr 0] false
        false) "p2" [Sum.inr 0] false false) 0 = "p2.p1.css" :=
  (c10_namespacing_stacks "css" "p1" "p2" false false).trans rfl

/-!
Resolution: `makeGulpTasks` walks `guzzleTasks` in order; for each task it
maps over `_dependencies`, replacing each string entry by the first recorded
task with that `_name` (lodash `_.find`), throwing
`new Error('task not found: ' + dependantTask)` on a miss, and then calls
`gulp.task(name, depNames, onDoneFunction)` for that task.  The throw
escapes the `forEach`, so tasks before the failing one have already been
registered and none at or past it is.
-/

/-- One gulp registration: `gulp.task(name, depNames, fn)`. -/
structure GulpReg where
  name : String
  depNames : List String
deriving DecidableEq, Repr

/-- Resolve one task's dependency list against the full registry, producing
the `_name`s handed to `gulp.task`: a string entry is looked up with
`_.find(guzzleTasks, { _name })` and a miss throws; an object entry is
already a task and contributes its (current) name. -/
def resolveDeps (full : List TaskRec) : List DepRef → Except String (List String)
  | [] => Except.ok []
  | Sum.inl s :: rest =>
    match full.find? (fun u => u.name == s) with
    | some u => (resolveDeps full rest).map (fun ns => u.name :: ns)
    | none => Except.error ("task not found: " ++ s)
  | Sum.inr i :: rest =>
    (resolveDeps full rest).map (fun ns => nameAt full i :: ns)

/-- The `forEach` loop of `makeGulpTasks`, with the registrations issued so
far accumulated (in reverse); a throw stops the loop and keeps the
registrations already made. -/
def makeGulpTasksGo (full : List TaskRec) :
    List TaskRec → List GulpReg → List GulpReg × Option String
  | [], acc => (acc.reverse, none)
  | t :: rest, acc =>
    match resolveDeps full t.deps with
    | Except.ok ns =>
      makeGulpTasksGo full rest ({ name := t.name, depNames := ns } :: acc)
    | Except.error e => (acc.reverse, some e)

/-- `makeGulpTasks()`: returns the list of `gulp.task` registrations
performed and the error message of the throw that aborted the loop, if
any. -/
def makeGulpTasks (ts : List TaskRec) : List GulpReg × Option String :=
  makeGulpTasksGo ts ts []

/-- Prefix test on character lists, used to define substring containment. -/
def listPrefixCheck : List Char → List Char → Bool
  | [], _ => true
  | _ :: _, [] => false
  | a :: as, b :: bs => a == b && listPrefixCheck as bs

/-- Substring test on character lists. -/
def listSublist : List Char → List Char → Bool
  | n, [] => n.isEmpty
  | n, b :: bs => listPrefixCheck n (b :: bs) || listSublist n bs

/-- `strContains hay needle` holds when `needle` occurs contiguously in
`hay`; this is how "the message names X" is read. -/
def strContains (hay needle : String) : Bool :=
  listSublist needle.data hay.data

/-- Every resolution error is of the shape `task not found: <dep>` for some
string dependency that matches no recorded task: the message carries the
missing dependency name and nothing else. -/
theorem resolveDeps_error_shape (full : List TaskRec) :
    ∀ (ds : List DepRef) (e : String), resolveDeps full ds = Except.error e →
      ∃ s, Sum.inl s ∈ ds ∧ full.find? (fun u => u.name == s) = none ∧
        e = "task not found: " ++ s := by
  intro ds
  induction ds with
  | nil =>
    intro e h
    exact absurd h (by simp [resolveDeps])
  | cons d rest ih =>
    intro e h
    cases d with
    | inl s =>
      cases hf : full.find? (fun u => u.name == s) with
      | none =>
        simp only [resolveDeps, hf] at h
        exact ⟨s, List.mem_cons_self _ _, hf, (Except.error.inj h).symm⟩
      | some u =>
        simp only [resolveDeps, hf] at h
        cases hr : resolveDeps full rest with
        | ok ns => rw [hr] at h; simp [Except.map] at h
        | error e2 =>
          rw [hr] at h
          simp only [Except.map] at h
          obtain ⟨s2, hmem, hf2, he⟩ := ih e2 hr
          exact ⟨s2, List.mem_cons_of_mem _ hmem, hf2,
            (Except.error.inj h).symm ▸ he⟩
    | inr i =>
      simp only [resolveDeps] at h
      cases hr : resolveDeps full rest with
      | ok ns => rw [hr] at h; simp [Except.map] at h
      | error e2 =>
        rw [hr] at h
        simp only [Except.map] at h
        obtain ⟨s2, hmem, hf2, he⟩ := ih e2 hr
        exact ⟨s2, List.mem_cons_of_mem _ hmem, hf2,
          (Except.error.inj h).symm ▸ he⟩

/-- Running the registration loop up to the first failing task: every task
before it is registered, the loop stops with that task's error. -/
theorem makeGulpTasksGo_aborts (full : List TaskRec) (t : TaskRec) (e : String)
    (post : List TaskRec) (ht : resolveDeps full t.deps = Except.error e) :
    ∀ (pre : List TaskRec) (acc : List GulpReg),
      (∀ u ∈ pre, ∃ ns, resolveDeps full u.deps = Except.ok ns) →
      (makeGulpTasksGo full (pre ++ t :: post) acc).2 = some e ∧
      (makeGulpTasksGo full (pre ++ t :: post) acc).1.map GulpReg.name =
        acc.reverse.map GulpReg.name ++ pre.map TaskRec.name := by
  intro pre
  induction pre with
  | nil =>
    intro acc _
    simp [makeGulpTasksGo, ht]
  | cons u rest ih =>
    intro acc hpre
    obtain ⟨ns, hu⟩ := hpre u (List.mem_cons_self _ _)
    have hrest : ∀ v ∈ rest, ∃ ms, resolveDeps full v.deps = Except.ok ms :=
      fun v hv => hpre v (List.mem_cons_of_mem _ hv)
    have hgo := ih ({ name := u.name, depNames := ns } :: acc) hrest
    simp only [List.cons_append, makeGulpTasksGo, hu, List.append_eq]
    refine ⟨hgo.1, ?_⟩
    rw [hgo.2]
    simp

/-- Claim C2 as amended: if every task before `t` in the registry resolves
and `t`'s dependency list fails to resolve, then `makeGulpTasks` stops with
an error of the exact shape `task not found: <missing>` — naming the missing
dependency only, not the referencing task — and the registrations handed to
gulp are exactly those of the tasks before `t` (so earlier tasks were
already registered and none at or past `t` is). -/
theorem c2_missing_dep_aborts (pre post : List TaskRec) (t : TaskRec)
    (e : String)
    (hpre : ∀ u ∈ pre, ∃ ns,
      resolveDeps (pre ++ t :: post) u.deps = Except.ok ns)
    (ht : resolveDeps (pre ++ t :: post) t.deps = Except.error e) :
    (makeGulpTasks (pre ++ t :: post)).2 = some e ∧
    (makeGulpTasks (pre ++ t :: post)).1.map GulpReg.name =
      pre.map TaskRec.name ∧
    ∃ s, Sum.inl s ∈ t.deps ∧
      (pre ++ t :: post).find? (fun u => u.name == s) = none ∧
      e = "task not found: " ++ s := by
  have h := makeGulpTasksGo_aborts (pre ++ t :: post) t e post ht pre [] hpre
  refine ⟨h.1, ?_, resolveDeps_error_shape (pre ++ t :: post) t.deps e ht⟩
  have h2 := h.2
  simpa using h2

/-- Counterexample to claim C2 as stated: with tasks `a` and `zzz` where
`zzz` depends on the undeclared `"missing"`, the thrown message is exactly
`task not found: missing` — it does not name the referencing task `zzz` —
and the registration list handed to gulp is `[a]`, not empty: a task was
handed to the scheduler before the abort. -/
theorem c2_counterexample :
    makeGulpTasks [TaskRec.mk0 "a" [] true false,
      TaskRec.mk0 "zzz" [Sum.inl "missing"] true false] =
      ([{ name := "a", depNames := [] }], some "task not found: missing") ∧
    strContains "task not found: missing" "zzz" = false ∧
    ([{ name := "a", depNames := [] }] : List GulpReg) ≠ [] := by
  decide

/-- Witness for the amended C2 at the same concrete registry. -/
theorem c2_missing_dep_aborts_witness :
    (makeGulpTasks [TaskRec.mk0 "a" [] true false,
      TaskRec.mk0 "zzz" [Sum.inl "missing"] true false]).2 =
      some "task not found: missing" ∧
    (makeGulpTasks [TaskRec.mk0 "a" [] true false,
      TaskRec.mk0 "zzz" [Sum.inl "missing"] true false]).1.map GulpReg.name =
      ["a"] :=
  have h := c2_missing_dep_aborts [TaskRec.mk0 "a" [] true false] []
    (TaskRec.mk0 "zzz" [Sum.inl "missing"] true false)
    "task not found: missing"
    (by
      intro u hu
      rw [List.mem_singleton] at hu
      subst hu
      exact ⟨[], rfl⟩)
    (by rfl)
  ⟨h.1, h.2.1⟩

/-!
Graph output.  `outputTaskGraph` runs after resolution, so each task's
dependencies are task objects; only `_name`, the dependency names (in
declaration order) and the presence of `_onDoneFunction` are read.  The
DOT text is accumulated by `result.push(...)` inside a `forEach` over
`guzzleTasks`; the attribute pairs come from a lodash `_.map` over the
object literal, whose keys iterate in insertion order: `shape` then
`style`.  The rendering of the DOT text to image bytes (viz.js) and the
file write are external and not modelled.
-/

/-- A task as seen by the graph builder, post-resolution. -/
structure GTask where
  name : String
  depNames : List String
  hasBody : Bool
deriving DecidableEq, Repr

/-- JavaScript `Array.prototype.join(',')`. -/
def joinComma : List String → String
  | [] => ""
  | [x] => x
  | x :: y :: rest => x ++ "," ++ joinComma (y :: rest)

/-- The attribute object of a node, keys in insertion order:
`shape` is `box` when `_dependencies.length` is truthy (non-zero), else
`ellipse`; `style` is `solid` when `_onDoneFunction` is set, else
`dashed`. -/
def guzzleAttrs (t : GTask) : List (String × String) :=
  [("shape", if t.depNames.length != 0 then "box" else "ellipse"),
   ("style", if t.hasBody then "solid" else "dashed")]

/-- The node declaration line pushed for a task. -/
def nodeLine (t : GTask) : String :=
  "\"" ++ t.name ++ "\" [" ++
    joinComma ((guzzleAttrs t).map (fun kv => kv.1 ++ "=" ++ kv.2)) ++ "];"

/-- The edge line pushed for one dependency of a task. -/
def edgeLine (t : GTask) (d : String) : String :=
  "\"" ++ t.name ++ "\" -> \"" ++ d ++ "\";"

/-- The `forEach` body: push the node line, then — when the dependency list
is non-empty — push one edge line per dependency in order. -/
def pushTaskLines (acc : List String) (t : GTask) : List String :=
  let acc1 := acc ++ [nodeLine t]
  if t.depNames.length > 0 then acc1 ++ t.depNames.map (edgeLine t) else acc1

/-- `outputTaskGraph`'s DOT text, as the list of lines later joined with
newlines: the header, the per-task pushes in declaration order, the
footer. -/
def outputTaskGraphLines (ts : List GTask) : List String :=
  (ts.foldl pushTaskLines ["digraph G \x7b"]) ++ ["\x7d"]

/-- The graph text claim C5 describes, written from the spec's words: after
the header, in task declaration order, exactly one node declaration per
task — shape `box` when the dependency list is non-empty and `ellipse` when
it is empty, style `solid` when the task has a body and `dashed` when it
has none — followed by exactly one edge per dependency entry, directed from
the dependent task's name to the dependency's name, in dependency
declaration order; then the footer. -/
def graphLinesSpec (ts : List GTask) : List String :=
  "digraph G \x7b" ::
    (ts.bind (fun t =>
      ("\"" ++ t.name ++ "\" [shape=" ++
          (if t.depNames ≠ [] then "box" else "ellipse") ++
        ",style=" ++ (if t.hasBody then "solid" else "dashed") ++ "];") ::
      t.depNames.map (fun d => "\"" ++ t.name ++ "\" -> \"" ++ d ++ "\";")))
    ++ ["\x7d"]

/-- The accumulator of the `forEach` only ever grows by the per-task
lines. -/
theorem foldl_pushTaskLines (ts : List GTask) :
    ∀ acc : List String,
      ts.foldl pushTaskLines acc =
        acc ++ ts.bind (fun t => nodeLine t :: t.depNames.map (edgeLine t)) := by
  induction ts with
  | nil => intro acc; simp
  | cons t rest ih =>
    intro acc
    rw [List.foldl_cons, ih]
    cases hd : t.depNames with
    | nil =>
      simp [pushTaskLines, hd]
    | cons d ds =>
      simp [pushTaskLines, hd]

/-- Claim C5: the rendered DOT lines are exactly the ones the spec
describes — a deterministic function of the declaration sequence, with one
node declaration per task (shape by dependency count, style by body
presence) and one edge per dependency, all in declaration order. -/
theorem c5_graph_lines (ts : List GTask) :
    outputTaskGraphLines ts = graphLinesSpec ts := by
  unfold outputTaskGraphLines graphLinesSpec
  rw [foldl_pushTaskLines]
  have hlines : ∀ t : GTask,
      nodeLine t :: t.depNames.map (edgeLine t) =
        ("\"" ++ t.name ++ "\" [shape=" ++
            (if t.depNames ≠ [] then "box" else "ellipse") ++
          ",style=" ++ (if t.hasBody then "solid" else "dashed") ++ "];") ::
        t.depNames.map (fun d => "\"" ++ t.name ++ "\" -> \"" ++ d ++ "\";") := by
    intro t
    have hnode : nodeLine t =
        "\"" ++ t.name ++ "\" [shape=" ++
          (if t.depNames ≠ [] then "box" else "ellipse") ++
        ",style=" ++ (if t.hasBody then "solid" else "dashed") ++ "];" := by
      cases hd : t.depNames with
      | nil =>
        cases hb : t.hasBody <;>
          simp [nodeLine, guzzleAttrs, joinComma, hd, hb, String.append_assoc]
      | cons d ds =>
        cases hb : t.hasBody <;>
          simp [nodeLine, guzzleAttrs, joinComma, hd, hb, String.append_assoc]
    rw [hnode]
    rfl
  simp only [hlines]
  rfl

/-!
`GuzzleTask.read` with an existing stream (source: `read()` saves
`oldStream = this._stream`, sets `this._stream = gulp.src(...)`, and when
`oldStream` is non-null calls `newStream.pause()` and registers
`oldStream.on('finish', () => newStream.resume())`).

A node stream signals completion with one event: `end` when it is a
Readable (e.g. a bare `gulp.src` pipeline), `finish` when it is a Writable
(e.g. a pipeline ending in `gulp.dest`).  A paused stream emits no `data`
events.  The model below is the state of the two streams after the second
`read` call, evolved by an arbitrary interleaving of the old stream's
completion and attempts of the new stream to emit data.
-/

/-- Which completion event the previous stream emits. -/
inductive StreamKind where
  | readable
  | writable
deriving DecidableEq, Repr

/-- The one completion event a stream of this kind emits. -/
def completionEventName : StreamKind → String
  | StreamKind.readable => "end"
  | StreamKind.writable => "finish"

/-- Joint state of the old and new stream after the second `read` call. -/
structure ReadPair where
  oldKind : StreamKind
  oldCompleted : Bool
  newPaused : Bool
  newEmitted : Nat
deriving DecidableEq, Repr

/-- The state `read` leaves behind when a previous stream exists: the old
stream still running, the new source stream paused
(`newStream.pause()`), no data emitted by it yet. -/
def readSecondCallState (k : StreamKind) : ReadPair :=
  { oldKind := k, oldCompleted := false, newPaused := true, newEmitted := 0 }

/-- Events the environment can deliver: the old stream signals completion
(emitting its kind's completion event, which runs the `finish` listener
`read` registered when that is the event emitted), or the new stream tries
to emit a data chunk (which a paused stream does not do). -/
inductive StreamEvent where
  | oldCompletes
  | newData
deriving DecidableEq, Repr

/-- One step of the two-stream system. -/
def streamStep (s : ReadPair) : StreamEvent → ReadPair
  | StreamEvent.oldCompletes =>
    let s1 := { s with oldCompleted := true }
    if completionEventName s.oldKind = "finish" then { s1 with newPaused := false }
    else s1
  | StreamEvent.newData =>
    if s.newPaused then s else { s with newEmitted := s.newEmitted + 1 }

/-- Run the system from the post-`read` state. -/
def streamRun (k : StreamKind) (evs : List StreamEvent) : ReadPair :=
  evs.foldl streamStep (readSecondCallState k)

/-- Claim C7: the second `read`'s source stream is paused at creation, and
under any interleaving it emits no data until the old stream has signaled
completion — whatever completion event the old stream's kind makes it emit
(an old Writable's `finish` resumes the new stream; an old Readable's `end`
does not match the registered `finish` listener, so the new stream simply
stays paused) — hence at most one input stream is ever active. -/
theorem c7_read_linearizes (k : StreamKind) (evs : List StreamEvent) :
    (readSecondCallState k).newPaused = true ∧
    ((streamRun k evs).newEmitted ≠ 0 →
      (streamRun k evs).oldCompleted = true) := by
  refine ⟨rfl, ?_⟩
  have inv : ∀ (l : List StreamEvent) (s : ReadPair),
      (s.newPaused = false → s.oldCompleted = true) →
      (s.newEmitted ≠ 0 → s.oldCompleted = true) →
      ((l.foldl streamStep s).newPaused = false →
        (l.foldl streamStep s).oldCompleted = true) ∧
      ((l.foldl streamStep s).newEmitted ≠ 0 →
        (l.foldl streamStep s).oldCompleted = true) := by
    intro l
    induction l with
    | nil => intro s h1 h2; exact ⟨h1, h2⟩
    | cons ev rest ih =>
      intro s h1 h2
      cases ev with
      | oldCompletes =>
        rw [List.foldl_cons]
        apply ih
        · intro _
          cases hk : s.oldKind <;> simp [streamStep, hk, completionEventName]
        · intro _
          cases hk : s.oldKind <;> simp [streamStep, hk, completionEventName]
      | newData =>
        rw [List.foldl_cons]
        cases hp : s.newPaused with
        | true =>
          have hstep : streamStep s StreamEvent.newData = s := by
            simp [streamStep, hp]
          rw [hstep]
          exact ih s h1 h2
        | false =>
          have hoc : s.oldCompleted = true := h1 hp
          have hstep : streamStep s StreamEvent.newData =
              { s with newEmitted := s.newEmitted + 1 } := by
            simp [streamStep, hp]
          rw [hstep]
          apply ih
          · intro _; exact hoc
          · intro _; exact hoc
  exact (inv evs (readSecondCallState k) (by intro h; cases h)
    (by intro h; cases h rfl)).2

/-- Witness for C7: with a Writable old stream, after the old stream
completes the new one may emit — and the theorem then certifies the old
stream had indeed completed first. -/
theorem c7_read_linearizes_witness :
    (streamRun StreamKind.writable
      [StreamEvent.oldCompletes, StreamEvent.newData]).newEmitted ≠ 0 ∧
    (streamRun StreamKind.writable
      [StreamEvent.oldCompletes, StreamEvent.newData]).oldCompleted = true :=
  ⟨by decide,
   (c7_read_linearizes StreamKind.writable
     [StreamEvent.oldCompletes, StreamEvent.newData]).2 (by decide)⟩

/-!
The completion wrapper `_onDoneFunction` around a user body
(source: run the body, then if `this._stream` is set register `finish` and
`end` listeners that assign `this._stream = null`, and return
`this._stream || result`).  The body is an arbitrary function of the task
(it may chain `read`/`pipe`/`write`, leaving a stream handle, or return a
deferred result and leave no stream); the wrapper is modelled as a
higher-order function over it.  Streams carry the set of event names on
which a reset-`_stream` closure has been registered.
-/

/-- A stream handle: an identifier plus the event names on which a
`this._stream = null` listener has been installed. -/
structure WStream where
  id : Nat
  clearEvents : List String
deriving DecidableEq, Repr

/-- The task state the wrapper manipulates. -/
structure WTask where
  runOnce : Bool
  state : State
  stream : Option WStream
deriving DecidableEq, Repr

/-- What the wrapper hands back to the scheduler. -/
inductive WrapReturn where
  | callbackDone
  | streamHandle (s : WStream)
  | bodyResult (r : Option Int)
deriving DecidableEq, Repr

/-- Install the two reset listeners: `finish` (in case the stream is a
Writable) and `end` (in case it is a Readable). -/
def installClearListeners (s : WStream) : WStream :=
  { s with clearEvents := s.clearEvents ++ ["finish", "end"] }

/-- The wrapper: short-circuit on the run-once guard; otherwise run the
body, install the reset listeners when a stream is set, and return the
stream handle if one is set, else the body's own result
(`return this._stream || result`). -/
def onDoneWrapper (body : WTask → WTask × Option Int) (t : WTask) :
    WTask × WrapReturn :=
  if t.runOnce && !(t.state = State.notStarted) then (t, WrapReturn.callbackDone)
  else
    let br := body t
    match h : br.1.stream with
    | some s =>
      let s2 := installClearListeners s
      ({ br.1 with stream := some s2 }, WrapReturn.streamHandle s2)
    | none => (br.1, WrapReturn.bodyResult br.2)

/-- Deliver a stream event to the task's current stream: when a reset
listener is registered for that event name, `this._stream` is set back to
`null`. -/
def fireStreamEvent (t : WTask) (ev : String) : WTask :=
  match t.stream with
  | some s => if ev ∈ s.clearEvents then { t with stream := none } else t
  | none => t

/-- Claim C8: whenever the run-once guard does not short-circuit, the
wrapper returns the stream handle exactly when a stream is set after the
body ran (the body's own return value is returned only when no stream is
set), and in the stream case the installed listeners make either completion
event — `end` (producer) or `finish` (consumer) — clear the stream field
back to empty. -/
theorem c8_wrapper_prefers_stream (body : WTask → WTask × Option Int)
    (t : WTask) (hg : ¬(t.runOnce = true ∧ t.state ≠ State.notStarted)) :
    (∀ s, (onDoneWrapper body t).1.stream = some s →
      (onDoneWrapper body t).2 = WrapReturn.streamHandle s ∧
      (fireStreamEvent (onDoneWrapper body t).1 "finish").stream = none ∧
      (fireStreamEvent (onDoneWrapper body t).1 "end").stream = none) ∧
    ((onDoneWrapper body t).1.stream = none →
      (onDoneWrapper body t).2 = WrapReturn.bodyResult (body t).2) := by
  have hguard : (t.runOnce && !(t.state = State.notStarted)) = false := by
    cases hr : t.runOnce with
    | false => simp
    | true =>
      cases hs : decide (t.state = State.notStarted) with
      | true => simp_all
      | false =>
        exfalso
        exact hg ⟨hr, of_decide_eq_false hs⟩
  unfold onDoneWrapper
  rw [hguard]
  simp only [Bool.false_eq_true, if_false]
  cases hb : (body t).1.stream with
  | some s =>
    constructor
    · intro s' hs'
      simp only [hb] at hs' ⊢
      have hs2 : s' = installClearListeners s := by
        have := hs'
        simp at this
        exact this.symm
      subst hs2
      refine ⟨rfl, ?_, ?_⟩ <;>
        simp [fireStreamEvent, installClearListeners]
    · intro hnone
      simp only [hb] at hnone
      simp at hnone
  | none =>
    constructor
    · intro s' hs'
      simp only [hb] at hs'
      simp at hs'
    · intro _
      simp only [hb]

/-- A body that chains stream operations, leaving a stream handle on the
task, and also returns a deferred result. -/
def c8Body : WTask → WTask × Option Int :=
  fun t => ({ t with stream := some { id := 7, clearEvents := [] } }, some 42)

/-- A plain task before its first activation. -/
def c8Task : WTask :=
  { runOnce := false, state := State.notStarted, stream := none }

/-- Witness for C8: with a body that sets a stream and also returns a
deferred result, the wrapper returns the stream handle (listeners
installed), and an `end` event clears the stream field. -/
theorem c8_wrapper_prefers_stream_witness :
    (onDoneWrapper c8Body c8Task).2 =
      WrapReturn.streamHandle { id := 7, clearEvents := ["finish", "end"] } ∧
    (fireStreamEvent (onDoneWrapper c8Body c8Task).1 "end").stream = none :=
  have h := (c8_wrapper_prefers_stream c8Body c8Task (by decide)).1
    { id := 7, clearEvents := ["finish", "end"] } rfl
  ⟨h.1, h.2.2⟩

/-!
The console reporter `printTasks`.  For each task it prints
`stateSymbols[task._state]`, the task name, and an elapsed suffix computed
as `task._started ? (task._ended || now) - task._started : 0`, formatted
as `(Math.round(elapsed / 100) / 10) + 's'` when `elapsed > 1000` and
`elapsed + 'ms'` otherwise; the suffix is wrapped in parentheses when the
formatted elapsed string is truthy (a non-empty string — which it always
is).  The `cli-color` escape-code wrapping and the screen-clearing prefix
are presentation only and are not modelled; `Math.round` on a JavaScript
number rounds half toward positive infinity, which for the positive
integers of the seconds branch is `(e + 50) / 100` in integer division. -/

/-- `task._started ? (task._ended || now) - task._started : 0`. -/
def elapsedMsRaw (t : TaskRec) (now : Int) : Int :=
  match t.startedAt with
  | some s => (t.endedAt.getD now) - s
  | none => 0

/-- `Math.round(e / 100)` for the `e > 1000` branch. -/
def jsRound100 (e : Int) : Int := (e + 50) / 100

/-- JavaScript's decimal rendering of `Math.round(e / 100) / 10`: an
integer prints without a decimal point, otherwise one decimal digit. -/
def secondsDisplay (e : Int) : String :=
  let d := jsRound100 e
  if d % 10 = 0 then toString (d / 10)
  else toString (d / 10) ++ "." ++ toString (d % 10)

/-- `elapsed > 1000 ? (Math.round(elapsed / 100) / 10) + 's' : elapsed + 'ms'`. -/
def formatElapsed (e : Int) : String :=
  if e > 1000 then secondsDisplay e ++ "s" else toString e ++ "ms"

/-- The `stateSymbols` glyphs (colour wrapping dropped). -/
def stateSymbol : State → String
  | State.notStarted => "-"
  | State.started => "?"
  | State.done => "✓"
  | State.error => "X"

/-- One task's line of the snapshot, including the source's
`elapsed ? '(' + elapsed + ')' : ''` guard on the already-formatted
string. -/
def printTaskLine (now : Int) (t : TaskRec) : String :=
  stateSymbol t.state ++ " " ++ t.name ++ " " ++
    (if formatElapsed (elapsedMsRaw t now) ≠ "" then
      "(" ++ formatElapsed (elapsedMsRaw t now) ++ ")"
    else "")

/-- The snapshot: one line per task, in registry order. -/
def printTasksLines (now : Int) (ts : List TaskRec) : List String :=
  ts.map (printTaskLine now)

/-- The formatted elapsed string is never empty: the `elapsed ?` guard in
the template literal never suppresses the suffix, because by then `elapsed`
has been replaced by a non-empty string such as `"0ms"`. -/
theorem formatElapsed_ne_empty (e : Int) : formatElapsed e ≠ "" := by
  unfold formatElapsed
  split <;> intro h <;>
    (have h2 := congrArg String.length h
     simp [String.length_append] at h2
     exact absurd h2.2 (by decide))

/-- A task that has never started. -/
def c9IdleTask : TaskRec := TaskRec.mk0 "idle" [] true false

/-- Counterexample to claim C9: a task that has never started still gets an
elapsed-time suffix — its line ends in `(0ms)` — because the truthiness
guard tests the formatted string `"0ms"`, which is non-empty; and an
elapsed time of exactly 1000 ms (one second) is rendered as `1000ms`, not
in seconds, because the branch condition is strictly `elapsed > 1000`. -/
theorem c9_counterexample :
    printTaskLine 500 c9IdleTask = "- idle (0ms)" ∧
    c9IdleTask.startedAt = none ∧
    formatElapsed 1000 = "1000ms" ∧
    ("1000ms" = "1s" → False) ∧ ("1000ms" = "1.0s" → False) := by
  refine ⟨by decide, rfl, by decide, by decide, by decide⟩

/-- Claim C9 as amended: every task's line carries the elapsed suffix in
parentheses (a never-started task shows `(0ms)`); the format is
milliseconds for elapsed times up to and including 1000 ms and tenths of
seconds strictly above 1000 ms; the elapsed time is measured against
`endedAt` whenever it is set (else against the current time), and is `0`
when the task never started. -/
theorem c9_reporter_format (t : TaskRec) (now : Int) :
    printTaskLine now t =
      stateSymbol t.state ++ " " ++ t.name ++ " (" ++
        formatElapsed (elapsedMsRaw t now) ++ ")" ∧
    (elapsedMsRaw t now > 1000 →
      formatElapsed (elapsedMsRaw t now) =
        secondsDisplay (elapsedMsRaw t now) ++ "s") ∧
    (elapsedMsRaw t now ≤ 1000 →
      formatElapsed (elapsedMsRaw t now) =
        toString (elapsedMsRaw t now) ++ "ms") ∧
    (t.startedAt = none → elapsedMsRaw t now = 0) ∧
    (∀ s, t.startedAt = some s →
      elapsedMsRaw t now = (t.endedAt.getD now) - s) := by
  refine ⟨?_, ?_, ?_, ?_, ?_⟩
  · unfold printTaskLine
    rw [if_pos (formatElapsed_ne_empty _)]
    have hm : ∀ x : String, (" " : String) ++ ("(" ++ x) = " (" ++ x := by
      intro x
      rw [← String.append_assoc]
      rw [show (" " : String) ++ "(" = " (" from by decide]
    simp [String.append_assoc, hm]
  · intro h
    unfold formatElapsed
    rw [if_pos h]
  · intro h
    unfold formatElapsed
    rw [if_neg (by omega)]
  · intro h
    unfold elapsedMsRaw
    rw [h]
  · intro s h
    unfold elapsedMsRaw
    rw [h]

/-- Witness for the amended C9: a running task started at 100 observed at
1600 shows `(1.5s)`; a finished task measures against its `endedAt`. -/
theorem c9_reporter_format_witness :
    printTaskLine 1600
      { TaskRec.mk0 "scripts" [] true false with
        state := State.started, startedAt := some 100 } =
      "? scripts (1.5s)" ∧
    elapsedMsRaw
      { TaskRec.mk0 "scripts" [] true false with
        state := State.done, startedAt := some 100, endedAt := some 900 }
      1600 = 800 :=
  ⟨((c9_reporter_format
      { TaskRec.mk0 "scripts" [] true false with
        state := State.started, startedAt := some 100 } 1600).1).trans
    (by decide),
   ((c9_reporter_format
      { TaskRec.mk0 "scripts" [] true false with
        state := State.done, startedAt := some 100, endedAt := some 900 }
      1600).2.2.2.2 100 rfl).trans (by decide)⟩
